import Mathlib

/-!
Verification of the QUIC server-side packet dispatcher
(`src/src/tools/quic_dispatcher.h`, class `net::tools::QuicDispatcher`).

Only the class declaration is present in the repository; the method bodies
live in a translation unit that is not part of the source tree.  The data
members are taken from the header (`session_map_`, `write_blocked_list_`,
`time_wait_list_manager_`, `closed_session_list_`), and each operation is
modelled from the specification text, as noted in its doc comment.

Opaque handles (connection identifiers / GUIDs, session objects, blocked
writer interfaces) are represented by natural numbers.  The `SessionMap`
(`base::hash_map<QuicGuid, QuicSession*>`) is an association list keyed by
GUID; the `WriteBlockedList` (`linked_hash_map<QuicBlockedWriterInterface*,
bool>`, used as an insertion-ordered set) is a list of writer handles; the
set of identifiers registered with the `QuicTimeWaitListManager` is a list
of GUIDs; `closed_session_list_` (`std::list<QuicSession*>`) is a list of
session handles.
-/

namespace QuicDispatcher

/-- A connection identifier (`QuicGuid` in the header). -/
abbrev QuicGuid := Nat

/-- An opaque session handle (`QuicSession*` in the header). -/
abbrev SessionHandle := Nat

/-- An opaque blocked-writer handle (`QuicBlockedWriterInterface*`). -/
abbrev WriterHandle := Nat

/-- The writer associated with a session: sessions and their connections'
writer interfaces are opaque handles in one-to-one correspondence, so the
model identifies the writer handle with the session handle. -/
def sessionWriter (s : SessionHandle) : WriterHandle := s

/-- The dispatcher state, with one field per data member of
`QuicDispatcher` that the specified operations touch:
`session_map_`, `write_blocked_list_`, the set of GUIDs registered with
`time_wait_list_manager_`, and `closed_session_list_`.  `next_session`
supplies fresh handles for newly created sessions. -/
structure DispatcherState where
  session_map : List (QuicGuid × SessionHandle)
  write_blocked_list : List WriterHandle
  time_wait_list : List QuicGuid
  closed_session_list : List SessionHandle
  next_session : SessionHandle
deriving Repr, DecidableEq

/-- The dispatcher state right after construction: every collection empty. -/
def initialState : DispatcherState :=
  { session_map := []
    write_blocked_list := []
    time_wait_list := []
    closed_session_list := []
    next_session := 0 }

/-- `session_map_.find(guid)`: look a GUID up in the session map. -/
def lookupSession (m : List (QuicGuid × SessionHandle)) (g : QuicGuid) :
    Option SessionHandle :=
  match m with
  | [] => none
  | (g', s) :: rest => if g' = g then some s else lookupSession rest g

/-- `session_map_.erase(it)`: remove a GUID's entry from the session map. -/
def eraseSession (m : List (QuicGuid × SessionHandle)) (g : QuicGuid) :
    List (QuicGuid × SessionHandle) :=
  m.filter (fun p => p.1 ≠ g)

/-- Insert a GUID into the time-wait set if absent (the effect of
`time_wait_list_manager_->AddGuidToTimeWait`): membership is what the
dispatcher observes, so registering is idempotent. -/
def timeWaitInsert (tw : List QuicGuid) (g : QuicGuid) : List QuicGuid :=
  if g ∈ tw then tw else g :: tw

/-- The routing-relevant fields of one incoming datagram, as parsed from
its unauthenticated public header: whether the header parsed at all, the
connection identifier, whether the declared version is supported, and
whether the packet type indicates connection establishment. -/
structure Packet where
  validHeader : Bool
  guid : QuicGuid
  versionSupported : Bool
  isEstablishment : Bool
deriving Repr, DecidableEq

/-- The time-wait manager's disposition for a stray packet
(spec §4.4: `Disposition ∈ {Ignore, Reject(responsePacket), AcceptAsNew}`). -/
inductive Disposition where
  | ignore
  | reject
  | acceptAsNew
deriving Repr, DecidableEq

/-- The externally observable outcome of dispatching one datagram. -/
inductive DispatchOutcome where
  /-- Malformed public header: packet silently dropped. -/
  | droppedMalformed
  /-- Forwarded to the existing session for its GUID. -/
  | deliveredTo (s : SessionHandle)
  /-- Time-wait manager told the dispatcher to ignore the packet. -/
  | timeWaitIgnored
  /-- Time-wait manager answered with a reset/response packet. -/
  | timeWaitRejected
  /-- A fresh session was created, inserted, and given the packet. -/
  | createdAndDelivered (s : SessionHandle)
  /-- Unseen GUID but unsupported version or not an establishment packet:
  dropped (possibly after a stateless negotiation response). -/
  | dropped
deriving Repr, DecidableEq

/-- The sessions a dispatch outcome delivered the packet to: one for the
delivery outcomes, none otherwise. -/
def deliveredSessions : DispatchOutcome → List SessionHandle
  | .deliveredTo s => [s]
  | .createdAndDelivered s => [s]
  | _ => []

/-- Modelled from the spec (§4.1 step 3), the body of
`QuicDispatcher::ProcessPacket` is not under `src/`: for an identifier
treated as unseen, if the declared version is supported and the packet type
indicates connection establishment, create a new session, insert it into
the session map, and deliver the packet to it; otherwise drop the packet
with no state change. -/
def handleUnseen (st : DispatcherState) (p : Packet) :
    DispatcherState × DispatchOutcome :=
  if p.versionSupported && p.isEstablishment then
    ({ st with
        session_map := (p.guid, st.next_session) :: st.session_map
        next_session := st.next_session + 1 },
      .createdAndDelivered st.next_session)
  else
    (st, .dropped)

/-- Modelled from the spec (§4.1, §4.4), the body of
`QuicDispatcher::ProcessPacket` is not under `src/`: a malformed public
header drops the packet with no state change; a GUID present in the session
map forwards the packet to that session with no other effect; a GUID absent
from the session map but registered in time-wait delegates to the time-wait
manager (`tw` gives its disposition) and acts on the disposition — ignore
and reject leave dispatcher state unchanged, while the rare accept-as-new
routes the packet back into the unseen-identifier path, the identifier no
longer counting as in time-wait (the spec's disjointness invariant forbids
an identifier being in both sets); an unseen GUID goes to `handleUnseen`. -/
def ProcessPacket (tw : Packet → Disposition) (st : DispatcherState)
    (p : Packet) : DispatcherState × DispatchOutcome :=
  if p.validHeader = false then
    (st, .droppedMalformed)
  else
    match lookupSession st.session_map p.guid with
    | some s => (st, .deliveredTo s)
    | none =>
      if p.guid ∈ st.time_wait_list then
        match tw p with
        | .ignore => (st, .timeWaitIgnored)
        | .reject => (st, .timeWaitRejected)
        | .acceptAsNew =>
            handleUnseen
              { st with time_wait_list := st.time_wait_list.erase p.guid } p
      else
        handleUnseen st p

/-- Modelled from the spec (§4.2), the body of
`QuicDispatcher::CleanUpSession` is not under `src/` (the header documents
it: removes the session from the session map and write blocked list, and
adds the GUID to the time-wait list); it also appends the session handle to
`closed_session_list_`. -/
def CleanUpSession (st : DispatcherState) (g : QuicGuid) (s : SessionHandle) :
    DispatcherState :=
  { st with
      session_map := eraseSession st.session_map g
      write_blocked_list :=
        st.write_blocked_list.filter (fun w => w ≠ sessionWriter s)
      time_wait_list := timeWaitInsert st.time_wait_list g
      closed_session_list := st.closed_session_list ++ [s] }

/-- Modelled from the spec (§4.2), the body of
`QuicDispatcher::OnConnectionClosed` is not under `src/`: look the GUID up
in the session map; if present, clean the session up (deferred deletion —
the session object itself is not destroyed here); if absent, do nothing. -/
def OnConnectionClosed (st : DispatcherState) (g : QuicGuid) :
    DispatcherState :=
  match lookupSession st.session_map g with
  | none => st
  | some s => CleanUpSession st g s

/-- Modelled from the spec (§4.3 `markWriteBlocked`), the body of
`QuicDispatcher::OnWriteBlocked` is not under `src/`: insert the writer at
the back of the insertion-ordered write-blocked list if absent; no-op if
already present. -/
def OnWriteBlocked (st : DispatcherState) (w : WriterHandle) :
    DispatcherState :=
  if w ∈ st.write_blocked_list then st
  else { st with write_blocked_list := st.write_blocked_list ++ [w] }

/-- `QuicDispatcher::HasPendingWrites`: true iff the blocked writer list is
non-empty. -/
def HasPendingWrites (st : DispatcherState) : Bool :=
  !st.write_blocked_list.isEmpty

/-- Modelled from the spec (§4.3 `resumeWrites`), the body of
`QuicDispatcher::OnCanWrite` is not under `src/`: walk the write-blocked
list in insertion order, invoking each writer's resume callback
(`stillBlocked w` tells whether writer `w` reports it is still blocked
after resuming).  A writer that fully drains is removed and iteration
continues; at the first writer still blocked, iteration stops immediately
and the unvisited writers remain queued.  Returns the list of writers whose
resume callback was invoked, in order, and the remaining queue. -/
def OnCanWriteLoop (stillBlocked : WriterHandle → Bool) :
    List WriterHandle → List WriterHandle × List WriterHandle
  | [] => ([], [])
  | w :: ws =>
    if stillBlocked w then
      ([w], w :: ws)
    else
      let rest := OnCanWriteLoop stillBlocked ws
      (w :: rest.1, rest.2)

/-- `QuicDispatcher::OnCanWrite` as a state transformer: replace the
write-blocked list with what `OnCanWriteLoop` leaves of it. -/
def OnCanWrite (stillBlocked : WriterHandle → Bool) (st : DispatcherState) :
    DispatcherState :=
  { st with
      write_blocked_list :=
        (OnCanWriteLoop stillBlocked st.write_blocked_list).2 }

/-- Modelled from the spec (§4.2 deferred flush), the body of
`QuicDispatcher::DeleteSessions` is not under `src/` (the header documents
it: deletes all sessions on the closed session list and clears the list).
Returns the new state and the list of session handles destroyed. -/
def DeleteSessions (st : DispatcherState) :
    DispatcherState × List SessionHandle :=
  ({ st with closed_session_list := [] }, st.closed_session_list)

/-- The dispatcher states reachable from construction by the modelled
operations.  Time-wait aging is external (§4.4: the dispatcher must not
assume an eviction policy), so eviction of any GUID from the time-wait set
is included as an environment step.  `Shutdown` closes every active session
and then flushes, which is a composition of `OnConnectionClosed` and
`DeleteSessions` steps, so it needs no step of its own. -/
inductive Reachable : DispatcherState → Prop where
  | init : Reachable initialState
  | processPacket (tw : Packet → Disposition) (p : Packet) {st : DispatcherState} :
      Reachable st → Reachable (ProcessPacket tw st p).1
  | connectionClosed (g : QuicGuid) {st : DispatcherState} :
      Reachable st → Reachable (OnConnectionClosed st g)
  | writeBlocked (w : WriterHandle) {st : DispatcherState} :
      Reachable st → Reachable (OnWriteBlocked st w)
  | canWrite (stillBlocked : WriterHandle → Bool) {st : DispatcherState} :
      Reachable st → Reachable (OnCanWrite stillBlocked st)
  | deleteSessions {st : DispatcherState} :
      Reachable st → Reachable (DeleteSessions st).1
  | timeWaitEvict (g : QuicGuid) {st : DispatcherState} :
      Reachable st →
      Reachable { st with time_wait_list := st.time_wait_list.erase g }

/-- The structural invariant of the dispatcher state: session-map keys are
unique, the write-blocked list has no duplicates, the time-wait set has no
duplicates, and no GUID is both in the session map and in time-wait. -/
def Inv (st : DispatcherState) : Prop :=
  (st.session_map.map Prod.fst).Nodup ∧
  st.write_blocked_list.Nodup ∧
  st.time_wait_list.Nodup ∧
  ∀ g, g ∈ st.session_map.map Prod.fst → g ∉ st.time_wait_list

/-- A sample state: one session, created for GUID 7 by dispatching a
valid establishment packet to the freshly constructed dispatcher. -/
def sampleActiveState : DispatcherState :=
  (ProcessPacket (fun _ => Disposition.ignore) initialState
    ⟨true, 7, true, true⟩).1

/-- The sample state after the session for GUID 7 announces its close. -/
def sampleClosedState : DispatcherState :=
  OnConnectionClosed sampleActiveState 7

/-! ### Helper lemmas -/

theorem sampleActiveState_reachable : Reachable sampleActiveState :=
  Reachable.processPacket (fun _ => Disposition.ignore)
    ⟨true, 7, true, true⟩ Reachable.init

theorem sampleClosedState_reachable : Reachable sampleClosedState :=
  Reachable.connectionClosed 7 sampleActiveState_reachable

theorem lookupSession_eq_none {m : List (QuicGuid × SessionHandle)}
    {g : QuicGuid} : lookupSession m g = none ↔ g ∉ m.map Prod.fst := by
  induction m with
  | nil => simp [lookupSession]
  | cons p rest ih =>
    obtain ⟨g', s⟩ := p
    simp only [lookupSession, List.map_cons, List.mem_cons, not_or]
    by_cases h : g' = g
    · subst h; simp
    · simp [h, ih, Ne.symm h]

theorem lookupSession_mem {m : List (QuicGuid × SessionHandle)}
    {g : QuicGuid} {s : SessionHandle} (h : lookupSession m g = some s) :
    (g, s) ∈ m := by
  induction m with
  | nil => simp [lookupSession] at h
  | cons p rest ih =>
    obtain ⟨g', s'⟩ := p
    by_cases hg : g' = g
    · simp [lookupSession, hg] at h
      subst hg h
      exact List.mem_cons_self _ _
    · simp [lookupSession, hg] at h
      exact List.mem_cons_of_mem _ (ih h)

theorem mem_keys_eraseSession {m : List (QuicGuid × SessionHandle)}
    {g g' : QuicGuid} (h : g' ∈ (eraseSession m g).map Prod.fst) :
    g' ∈ m.map Prod.fst ∧ g' ≠ g := by
  simp only [eraseSession, List.mem_map] at h
  obtain ⟨p, hp, hfst⟩ := h
  have hp' := List.mem_filter.mp hp
  refine ⟨List.mem_map.mpr ⟨p, hp'.1, hfst⟩, ?_⟩
  have := hp'.2
  simp only [decide_eq_true_eq] at this
  exact hfst ▸ this

theorem keys_eraseSession_nodup {m : List (QuicGuid × SessionHandle)}
    (h : (m.map Prod.fst).Nodup) (g : QuicGuid) :
    ((eraseSession m g).map Prod.fst).Nodup :=
  ((List.filter_sublist m).map Prod.fst).nodup h

theorem timeWaitInsert_nodup {tw : List QuicGuid} (h : tw.Nodup)
    (g : QuicGuid) : (timeWaitInsert tw g).Nodup := by
  unfold timeWaitInsert
  split
  · exact h
  · exact List.Nodup.cons (by assumption) h

theorem mem_timeWaitInsert {tw : List QuicGuid} {g g' : QuicGuid}
    (h : g' ∈ timeWaitInsert tw g) : g' = g ∨ g' ∈ tw := by
  unfold timeWaitInsert at h
  split at h
  · exact Or.inr h
  · exact List.mem_cons.mp h

/-- The loop of `OnCanWrite` leaves exactly the longest suffix of the queue
starting at the first still-blocked writer. -/
theorem OnCanWriteLoop_snd (stillBlocked : WriterHandle → Bool)
    (q : List WriterHandle) :
    (OnCanWriteLoop stillBlocked q).2 =
      q.dropWhile (fun w => !stillBlocked w) := by
  induction q with
  | nil => rfl
  | cons w ws ih =>
    by_cases h : stillBlocked w <;>
      simp [OnCanWriteLoop, List.dropWhile_cons, h, ih]

/-- The loop of `OnCanWrite` attempts exactly the writers that drain, in
queue order, followed by the first still-blocked writer when there is
one. -/
theorem OnCanWriteLoop_fst (stillBlocked : WriterHandle → Bool)
    (q : List WriterHandle) :
    (OnCanWriteLoop stillBlocked q).1 =
      q.takeWhile (fun w => !stillBlocked w) ++
        (q.dropWhile (fun w => !stillBlocked w)).take 1 := by
  induction q with
  | nil => rfl
  | cons w ws ih =>
    by_cases h : stillBlocked w <;>
      simp [OnCanWriteLoop, List.takeWhile_cons, List.dropWhile_cons, h, ih]

theorem mem_timeWaitInsert_self (tw : List QuicGuid) (g : QuicGuid) :
    g ∈ timeWaitInsert tw g := by
  unfold timeWaitInsert
  split
  · assumption
  · exact List.mem_cons_self _ _

theorem lookupSession_eraseSession (m : List (QuicGuid × SessionHandle))
    (g : QuicGuid) : lookupSession (eraseSession m g) g = none := by
  rw [lookupSession_eq_none]
  intro h
  exact (mem_keys_eraseSession h).2 rfl

theorem lookupSession_of_mem {m : List (QuicGuid × SessionHandle)}
    {g : QuicGuid} {s : SessionHandle} (hnd : (m.map Prod.fst).Nodup)
    (hm : (g, s) ∈ m) : lookupSession m g = some s := by
  induction m with
  | nil => cases hm
  | cons p rest ih =>
    obtain ⟨g', s'⟩ := p
    simp only [List.map_cons, List.nodup_cons] at hnd
    rcases List.mem_cons.mp hm with heq | hmem
    · obtain ⟨rfl, rfl⟩ := Prod.mk.injEq .. ▸ heq
      simp [lookupSession]
    · have hne : g' ≠ g := by
        rintro rfl
        exact hnd.1 (List.mem_map.mpr ⟨(g', s), hmem, rfl⟩)
      simp only [lookupSession, hne, if_false]
      exact ih hnd.2 hmem

/-! ### The invariant holds in every reachable state -/

theorem inv_initialState : Inv initialState := by
  refine ⟨?_, ?_, ?_, ?_⟩ <;> simp [initialState]

theorem inv_handleUnseen {st : DispatcherState} {p : Packet} (h : Inv st)
    (hg : p.guid ∉ st.session_map.map Prod.fst)
    (htw : p.guid ∉ st.time_wait_list) : Inv (handleUnseen st p).1 := by
  obtain ⟨h1, h2, h3, h4⟩ := h
  unfold handleUnseen
  split
  · refine ⟨?_, h2, h3, ?_⟩
    · exact List.Nodup.cons (by simpa using hg) h1
    · intro g hgmem
      simp only [List.map_cons, List.mem_cons] at hgmem
      rcases hgmem with rfl | hgmem
      · exact htw
      · exact h4 g hgmem
  · exact ⟨h1, h2, h3, h4⟩

theorem inv_ProcessPacket {st : DispatcherState} (h : Inv st)
    (tw : Packet → Disposition) (p : Packet) :
    Inv (ProcessPacket tw st p).1 := by
  unfold ProcessPacket
  split
  · exact h
  · split
    · exact h
    · rename_i hlook
      split
      · rename_i hmem
        split
        · exact h
        · exact h
        · obtain ⟨h1, h2, h3, h4⟩ := h
          apply inv_handleUnseen
          · exact ⟨h1, h2, h3.erase p.guid, fun g hg hge =>
              h4 g hg (List.mem_of_mem_erase hge)⟩
          · exact lookupSession_eq_none.mp hlook
          · exact h3.not_mem_erase
      · rename_i hmem
        exact inv_handleUnseen h (lookupSession_eq_none.mp hlook) hmem

theorem inv_OnConnectionClosed {st : DispatcherState} (h : Inv st)
    (g : QuicGuid) : Inv (OnConnectionClosed st g) := by
  obtain ⟨h1, h2, h3, h4⟩ := h
  unfold OnConnectionClosed
  split
  · exact ⟨h1, h2, h3, h4⟩
  · unfold CleanUpSession
    refine ⟨keys_eraseSession_nodup h1 g, h2.filter _,
      timeWaitInsert_nodup h3 g, ?_⟩
    intro g' hg' hg'tw
    obtain ⟨hg'mem, hg'ne⟩ := mem_keys_eraseSession hg'
    rcases mem_timeWaitInsert hg'tw with rfl | hg'tw'
    · exact hg'ne rfl
    · exact h4 g' hg'mem hg'tw'

theorem inv_OnWriteBlocked {st : DispatcherState} (h : Inv st)
    (w : WriterHandle) : Inv (OnWriteBlocked st w) := by
  obtain ⟨h1, h2, h3, h4⟩ := h
  unfold OnWriteBlocked
  split
  · exact ⟨h1, h2, h3, h4⟩
  · refine ⟨h1, ?_, h3, h4⟩
    rename_i hw
    rw [List.nodup_append]
    refine ⟨h2, List.nodup_singleton w, ?_⟩
    intro a ha hab
    rw [List.mem_singleton] at hab
    subst hab
    exact hw ha

theorem inv_OnCanWrite {st : DispatcherState} (h : Inv st)
    (stillBlocked : WriterHandle → Bool) : Inv (OnCanWrite stillBlocked st) := by
  obtain ⟨h1, h2, h3, h4⟩ := h
  refine ⟨h1, ?_, h3, h4⟩
  show ((OnCanWriteLoop stillBlocked st.write_blocked_list).2).Nodup
  rw [OnCanWriteLoop_snd]
  exact (List.dropWhile_sublist _).nodup h2

theorem inv_DeleteSessions {st : DispatcherState} (h : Inv st) :
    Inv (DeleteSessions st).1 := h

theorem inv_timeWaitEvict {st : DispatcherState} (h : Inv st) (g : QuicGuid) :
    Inv { st with time_wait_list := st.time_wait_list.erase g } := by
  obtain ⟨h1, h2, h3, h4⟩ := h
  exact ⟨h1, h2, h3.erase g, fun g' hg' hge =>
    h4 g' hg' (List.mem_of_mem_erase hge)⟩

/-- Every reachable dispatcher state satisfies the structural invariant. -/
theorem reachable_inv {st : DispatcherState} (h : Reachable st) : Inv st := by
  induction h with
  | init => exact inv_initialState
  | processPacket tw p _ ih => exact inv_ProcessPacket ih tw p
  | connectionClosed g _ ih => exact inv_OnConnectionClosed ih g
  | writeBlocked w _ ih => exact inv_OnWriteBlocked ih w
  | canWrite sb _ ih => exact inv_OnCanWrite ih sb
  | deleteSessions _ ih => exact inv_DeleteSessions ih
  | timeWaitEvict g _ ih => exact inv_timeWaitEvict ih g

/-! ### Claims -/

/-- C1: For every incoming datagram (with a well-formed header),
`ProcessPacket` routes in this fixed order: if the packet's connection
identifier is present in the session map, the full packet is forwarded to
that session and nothing else in dispatcher state changes; otherwise, if
the identifier is known to the time-wait manager, the packet is delegated
to the time-wait manager and the dispatcher acts on the returned
disposition (ignore or reject leave state unchanged; accept-as-new routes
into the unseen path) and stops; otherwise, a new session is created,
inserted into the session map, and given the packet exactly when the
declared version is supported and the packet type indicates connection
establishment, and the packet is dropped in all other cases. -/
theorem C1_processPacket_routing_order (tw : Packet → Disposition)
    (st : DispatcherState) (p : Packet) (hdr : p.validHeader = true) :
    (∀ s, lookupSession st.session_map p.guid = some s →
      ProcessPacket tw st p = (st, .deliveredTo s)) ∧
    (lookupSession st.session_map p.guid = none →
      p.guid ∈ st.time_wait_list →
      (tw p = .ignore → ProcessPacket tw st p = (st, .timeWaitIgnored)) ∧
      (tw p = .reject → ProcessPacket tw st p = (st, .timeWaitRejected)) ∧
      (tw p = .acceptAsNew →
        ProcessPacket tw st p =
          handleUnseen
            { st with time_wait_list := st.time_wait_list.erase p.guid } p)) ∧
    (lookupSession st.session_map p.guid = none →
      p.guid ∉ st.time_wait_list →
      ((p.versionSupported && p.isEstablishment) = true →
        ProcessPacket tw st p =
          ({ st with
              session_map := (p.guid, st.next_session) :: st.session_map
              next_session := st.next_session + 1 },
            .createdAndDelivered st.next_session)) ∧
      ((p.versionSupported && p.isEstablishment) = false →
        ProcessPacket tw st p = (st, .dropped))) := by
  refine ⟨?_, ?_, ?_⟩
  · intro s hs
    simp [ProcessPacket, hdr, hs]
  · intro hnone hmem
    refine ⟨?_, ?_, ?_⟩ <;> intro htw <;>
      simp [ProcessPacket, hdr, hnone, hmem, htw]
  · intro hnone hmem
    constructor <;> intro hve <;>
      simp [ProcessPacket, hdr, hnone, hmem, handleUnseen, hve]

/-- Witness for C1 at concrete inputs: the session-map-hit case and the
session-creation case, starting from a state holding one session. -/
theorem C1_processPacket_routing_order_witness :
    ProcessPacket (fun _ => Disposition.ignore)
        ⟨[(5, 3)], [], [], [], 4⟩ ⟨true, 5, true, true⟩ =
      (⟨[(5, 3)], [], [], [], 4⟩, .deliveredTo 3) ∧
    ProcessPacket (fun _ => Disposition.ignore)
        ⟨[(5, 3)], [], [], [], 4⟩ ⟨true, 7, true, true⟩ =
      (⟨[(7, 4), (5, 3)], [], [], [], 5⟩, .createdAndDelivered 4) :=
  ⟨(C1_processPacket_routing_order (fun _ => Disposition.ignore)
      ⟨[(5, 3)], [], [], [], 4⟩ ⟨true, 5, true, true⟩ rfl).1 3 rfl,
   ((C1_processPacket_routing_order (fun _ => Disposition.ignore)
      ⟨[(5, 3)], [], [], [], 4⟩ ⟨true, 7, true, true⟩ rfl).2.2 rfl
      (by simp) ).1 rfl⟩

/-- C8: A datagram whose public header is malformed is dropped with all
dispatcher state (session map, write-blocked list, closed-session list,
time-wait registrations) unchanged; a datagram declaring an unsupported
version never creates a session (session map and fresh-session counter are
unchanged and the outcome is never a session creation), whatever the
routing branch taken. -/
theorem C8_malformed_and_unsupported (tw : Packet → Disposition)
    (st : DispatcherState) (p : Packet) :
    (p.validHeader = false →
      ProcessPacket tw st p = (st, .droppedMalformed)) ∧
    (p.versionSupported = false →
      (ProcessPacket tw st p).1.session_map = st.session_map ∧
      (ProcessPacket tw st p).1.next_session = st.next_session ∧
      ∀ s, (ProcessPacket tw st p).2 ≠ .createdAndDelivered s) := by
  constructor
  · intro h
    simp [ProcessPacket, h]
  · intro hv
    unfold ProcessPacket
    split
    · simp [deliveredSessions]
    · split
      · simp
      · split
        · split
          · simp
          · simp
          · simp [handleUnseen, hv]
        · simp [handleUnseen, hv]

/-- Witness for C8: a malformed packet against a one-session state, and an
unsupported-version packet for an unseen identifier. -/
theorem C8_malformed_and_unsupported_witness :
    ProcessPacket (fun _ => Disposition.ignore)
        ⟨[(5, 3)], [2], [9], [1], 4⟩ ⟨false, 5, true, true⟩ =
      (⟨[(5, 3)], [2], [9], [1], 4⟩, .droppedMalformed) ∧
    (ProcessPacket (fun _ => Disposition.ignore)
        ⟨[(5, 3)], [2], [9], [1], 4⟩ ⟨true, 7, false, true⟩).1.session_map =
      [(5, 3)] :=
  ⟨(C8_malformed_and_unsupported (fun _ => Disposition.ignore)
      ⟨[(5, 3)], [2], [9], [1], 4⟩ ⟨false, 5, true, true⟩).1 rfl,
   ((C8_malformed_and_unsupported (fun _ => Disposition.ignore)
      ⟨[(5, 3)], [2], [9], [1], 4⟩ ⟨true, 7, false, true⟩).2 rfl).1⟩

/-- C9: Invoking the close notification `OnConnectionClosed` with an
identifier not present in the session map leaves the dispatcher state
entirely unchanged. -/
theorem C9_close_unknown_guid_noop (st : DispatcherState) (g : QuicGuid)
    (h : lookupSession st.session_map g = none) :
    OnConnectionClosed st g = st := by
  unfold OnConnectionClosed
  rw [h]

/-- Witness for C9: closing an unknown identifier against a non-empty
state changes nothing. -/
theorem C9_close_unknown_guid_noop_witness :
    lookupSession ([(5, 3)] : List (QuicGuid × SessionHandle)) 7 = none ∧
    OnConnectionClosed ⟨[(5, 3)], [2], [9], [1], 4⟩ 7 =
      ⟨[(5, 3)], [2], [9], [1], 4⟩ :=
  ⟨rfl, C9_close_unknown_guid_noop ⟨[(5, 3)], [2], [9], [1], 4⟩ 7 rfl⟩

/-- C2: For a session present in the session map, the close notification
`OnConnectionClosed` removes the identifier's entry from the session map,
removes the session's writer from the write-blocked list, registers the
identifier with the time-wait manager, and appends the session handle to
the closed-session (deferred-deletion) list; the session object is not
destroyed by this call — its handle is still held on the closed-session
list. -/
theorem C2_onConnectionClosed_cleanup (st : DispatcherState) (g : QuicGuid)
    (s : SessionHandle) (h : lookupSession st.session_map g = some s) :
    (OnConnectionClosed st g).session_map = eraseSession st.session_map g ∧
    lookupSession (OnConnectionClosed st g).session_map g = none ∧
    (OnConnectionClosed st g).write_blocked_list =
      st.write_blocked_list.filter (fun w => w ≠ sessionWriter s) ∧
    sessionWriter s ∉ (OnConnectionClosed st g).write_blocked_list ∧
    g ∈ (OnConnectionClosed st g).time_wait_list ∧
    (OnConnectionClosed st g).closed_session_list =
      st.closed_session_list ++ [s] ∧
    s ∈ (OnConnectionClosed st g).closed_session_list := by
  unfold OnConnectionClosed
  rw [h]
  unfold CleanUpSession
  refine ⟨rfl, lookupSession_eraseSession st.session_map g, rfl, ?_,
    mem_timeWaitInsert_self st.time_wait_list g, rfl, by simp⟩
  intro hmem
  have := (List.mem_filter.mp hmem).2
  simp at this

/-- Witness for C2: closing the only session of a concrete state. -/
theorem C2_onConnectionClosed_cleanup_witness :
    lookupSession ([(5, 3)] : List (QuicGuid × SessionHandle)) 5 = some 3 ∧
    (OnConnectionClosed ⟨[(5, 3)], [3, 2], [9], [1], 4⟩ 5).session_map =
      eraseSession [(5, 3)] 5 ∧
    5 ∈ (OnConnectionClosed ⟨[(5, 3)], [3, 2], [9], [1], 4⟩ 5).time_wait_list ∧
    (OnConnectionClosed ⟨[(5, 3)], [3, 2], [9], [1], 4⟩ 5).closed_session_list =
      [1] ++ [3] :=
  ⟨rfl,
   (C2_onConnectionClosed_cleanup ⟨[(5, 3)], [3, 2], [9], [1], 4⟩ 5 3 rfl).1,
   (C2_onConnectionClosed_cleanup
     ⟨[(5, 3)], [3, 2], [9], [1], 4⟩ 5 3 rfl).2.2.2.2.1,
   (C2_onConnectionClosed_cleanup
     ⟨[(5, 3)], [3, 2], [9], [1], 4⟩ 5 3 rfl).2.2.2.2.2.1⟩

/-- C3: A single `OnCanWrite` call attempts queued writers strictly in
insertion (FIFO) order: it resumes exactly the longest drained run of
writers from the front of the queue followed by the first still-blocked
writer if one exists (so no writer registered after the first blocked
writer is attempted), every drained writer is removed, and the writers
from the first blocked one on remain queued in their original relative
order. -/
theorem C3_onCanWrite_fifo_early_stop (stillBlocked : WriterHandle → Bool)
    (st : DispatcherState) :
    (OnCanWriteLoop stillBlocked st.write_blocked_list).1 =
      st.write_blocked_list.takeWhile (fun w => !stillBlocked w) ++
        (st.write_blocked_list.dropWhile (fun w => !stillBlocked w)).take 1 ∧
    (OnCanWrite stillBlocked st).write_blocked_list =
      st.write_blocked_list.dropWhile (fun w => !stillBlocked w) ∧
    (OnCanWriteLoop stillBlocked st.write_blocked_list).1 ++
        ((OnCanWrite stillBlocked st).write_blocked_list).drop 1 =
      st.write_blocked_list := by
  refine ⟨OnCanWriteLoop_fst stillBlocked st.write_blocked_list,
    OnCanWriteLoop_snd stillBlocked st.write_blocked_list, ?_⟩
  show (OnCanWriteLoop stillBlocked st.write_blocked_list).1 ++
      ((OnCanWriteLoop stillBlocked st.write_blocked_list).2).drop 1 =
    st.write_blocked_list
  rw [OnCanWriteLoop_fst, OnCanWriteLoop_snd, List.append_assoc,
    List.take_append_drop, List.takeWhile_append_dropWhile]

/-- C4: `OnWriteBlocked` is a no-op when the writer is already present and
appends the writer at the back when it is absent; consequently the
write-blocked list never contains duplicate entries in any reachable
state, before or after a registration. -/
theorem C4_onWriteBlocked_idempotent_nodup (st : DispatcherState)
    (w : WriterHandle) :
    (w ∈ st.write_blocked_list → OnWriteBlocked st w = st) ∧
    (w ∉ st.write_blocked_list →
      (OnWriteBlocked st w).write_blocked_list =
        st.write_blocked_list ++ [w]) ∧
    (Reachable st → st.write_blocked_list.Nodup ∧
      (OnWriteBlocked st w).write_blocked_list.Nodup) := by
  refine ⟨?_, ?_, ?_⟩
  · intro h
    simp [OnWriteBlocked, h]
  · intro h
    simp [OnWriteBlocked, h]
  · intro hr
    have hinv := reachable_inv hr
    exact ⟨hinv.2.1, (inv_OnWriteBlocked hinv w).2.1⟩

/-- Witness for C4: registering a fresh writer twice from the initial
state inserts it once, and the resulting lists have no duplicates. -/
theorem C4_onWriteBlocked_idempotent_nodup_witness :
    (OnWriteBlocked initialState 2).write_blocked_list = [] ++ [2] ∧
    OnWriteBlocked (OnWriteBlocked initialState 2) 2 =
      OnWriteBlocked initialState 2 ∧
    (OnWriteBlocked initialState 2).write_blocked_list.Nodup :=
  ⟨(C4_onWriteBlocked_idempotent_nodup initialState 2).2.1 (by simp [initialState]),
   (C4_onWriteBlocked_idempotent_nodup (OnWriteBlocked initialState 2) 2).1
     (by simp [OnWriteBlocked, initialState]),
   ((C4_onWriteBlocked_idempotent_nodup (OnWriteBlocked initialState 2) 2).2.2
     (Reachable.writeBlocked 2 Reachable.init)).1⟩

/-- C5: In every reachable dispatcher state each connection identifier
maps to at most one live session; processing a single packet delivers it
to at most one session; and for an identifier that already has a session,
`ProcessPacket` forwards without creating anything — the session map is
unchanged and the outcome is never a session creation, within one dispatch
call or (by reachability) across calls. -/
theorem C5_unique_session_per_guid (st : DispatcherState)
    (h : Reachable st) :
    (∀ g s1 s2, (g, s1) ∈ st.session_map → (g, s2) ∈ st.session_map →
      s1 = s2) ∧
    (∀ tw p, (deliveredSessions (ProcessPacket tw st p).2).length ≤ 1) ∧
    (∀ tw p s, lookupSession st.session_map p.guid = some s →
      (ProcessPacket tw st p).1.session_map = st.session_map ∧
      ∀ s2, (ProcessPacket tw st p).2 ≠ .createdAndDelivered s2) := by
  have hinv := reachable_inv h
  refine ⟨?_, ?_, ?_⟩
  · intro g s1 s2 h1 h2
    have e1 := lookupSession_of_mem hinv.1 h1
    have e2 := lookupSession_of_mem hinv.1 h2
    rw [e1] at e2
    exact Option.some_injective _ e2
  · intro tw p
    cases hout : (ProcessPacket tw st p).2 <;> simp [deliveredSessions]
  · intro tw p s hs
    unfold ProcessPacket
    by_cases hv : p.validHeader = false
    · simp [hv]
    · simp only [hv, if_false]
      rw [hs]
      simp

/-- Witness for C5 at the reachable one-session sample state. -/
theorem C5_unique_session_per_guid_witness :
    Reachable sampleActiveState ∧
    (∀ g s1 s2, (g, s1) ∈ sampleActiveState.session_map →
      (g, s2) ∈ sampleActiveState.session_map → s1 = s2) ∧
    (ProcessPacket (fun _ => Disposition.ignore) sampleActiveState
        ⟨true, 7, true, true⟩).1.session_map =
      sampleActiveState.session_map :=
  ⟨sampleActiveState_reachable,
   (C5_unique_session_per_guid sampleActiveState
     sampleActiveState_reachable).1,
   ((C5_unique_session_per_guid sampleActiveState
       sampleActiveState_reachable).2.2
     (fun _ => Disposition.ignore) ⟨true, 7, true, true⟩ 0 rfl).1⟩

/-- C6: In every reachable dispatcher state the identifiers in the
session map and the identifiers held in time-wait are disjoint: an
identifier present in time-wait is absent from the session table, and
vice versa. -/
theorem C6_sessionTable_timeWait_disjoint (st : DispatcherState)
    (h : Reachable st) :
    ∀ g, (g ∈ st.session_map.map Prod.fst → g ∉ st.time_wait_list) ∧
      (g ∈ st.time_wait_list → g ∉ st.session_map.map Prod.fst) := by
  have hinv := reachable_inv h
  intro g
  exact ⟨hinv.2.2.2 g, fun htw hsm => hinv.2.2.2 g hsm htw⟩

/-- Witness for C6 at the reachable sample state where GUID 7 has been
closed and therefore sits in time-wait and not in the session map. -/
theorem C6_sessionTable_timeWait_disjoint_witness :
    Reachable sampleClosedState ∧
    (∀ g, (g ∈ sampleClosedState.session_map.map Prod.fst →
        g ∉ sampleClosedState.time_wait_list) ∧
      (g ∈ sampleClosedState.time_wait_list →
        g ∉ sampleClosedState.session_map.map Prod.fst)) ∧
    7 ∈ sampleClosedState.time_wait_list :=
  ⟨sampleClosedState_reachable,
   C6_sessionTable_timeWait_disjoint sampleClosedState
     sampleClosedState_reachable,
   by decide⟩

/-- C7: The deferred-deletion flush `DeleteSessions` on an empty
closed-session list is a no-op, and calling it twice in a row with no
closures in between destroys no session on the second call and leaves the
list empty. -/
theorem C7_deleteSessions_idempotent (st : DispatcherState) :
    (st.closed_session_list = [] → DeleteSessions st = (st, [])) ∧
    DeleteSessions (DeleteSessions st).1 = ((DeleteSessions st).1, []) ∧
    (DeleteSessions (DeleteSessions st).1).1.closed_session_list = [] := by
  refine ⟨?_, rfl, rfl⟩
  intro h
  obtain ⟨a, b, c, d, e⟩ := st
  simp only at h
  subst h
  rfl

/-- Witness for C7: flushing the fresh dispatcher is a no-op, and a
second flush after a real one destroys nothing. -/
theorem C7_deleteSessions_idempotent_witness :
    DeleteSessions initialState = (initialState, []) ∧
    DeleteSessions (DeleteSessions ⟨[], [], [], [2], 0⟩).1 =
      ((DeleteSessions ⟨[], [], [], [2], 0⟩).1, []) :=
  ⟨(C7_deleteSessions_idempotent initialState).1 rfl,
   (C7_deleteSessions_idempotent ⟨[], [], [], [2], 0⟩).2.1⟩

/-- C10: `DeleteSessions` modifies only the closed-session list,
destroying exactly its sessions and emptying it; the session map, the
write-blocked list, and the time-wait registrations are unchanged. -/
theorem C10_deleteSessions_frame (st : DispatcherState) :
    (DeleteSessions st).1.session_map = st.session_map ∧
    (DeleteSessions st).1.write_blocked_list = st.write_blocked_list ∧
    (DeleteSessions st).1.time_wait_list = st.time_wait_list ∧
    (DeleteSessions st).1.closed_session_list = [] ∧
    (DeleteSessions st).2 = st.closed_session_list :=
  ⟨rfl, rfl, rfl, rfl, rfl⟩

end QuicDispatcher
